import Mathlib

/-!
# Verification of the `serverless-aws-cdk` provider adapter

Shallow embedding of `src/provider/awsCdkProvider.ts` (the `AwsCdkProvider`
class) and proofs of the specification claims about it.

Modelling conventions:
* TypeScript values that may be `undefined` are modelled as `Option`.
* Configuration values are strings; JavaScript truthiness on them is
  `truthy : Option String → Bool` (absent and the empty string are falsy,
  every other string is truthy).  `a || b` on such values is `jsOrString`.
* The async SDK calls (`sts.getCallerIdentity`, `SdkProvider` construction,
  role assumption, `forEnvironment`) are external effects: their responses
  enter the model as explicit arguments (`CallerIdentity`), and the calls the
  adapter issues leave it as explicit result data (`SdkRequest`,
  `SdkProviderHandle`).
-/

/-- JavaScript truthiness of an optional string value: `undefined` and `""`
are falsy, every other string is truthy. -/
def truthy : Option String → Bool
  | none => false
  | some s => !(s == "")

/-- JavaScript `v || d` for an optional string `v` and a string default `d`:
the value when it is truthy, otherwise the default. -/
def jsOrString (v : Option String) (d : String) : String :=
  match v with
  | some s => if s == "" then d else s
  | none => d

/-- `deploymentBucket` configuration object: its `name` field. -/
structure DeploymentBucketConfig where
  name : Option String
deriving DecidableEq, Repr

/-- The `provider` section of the serverless service configuration
(`serverless.service.provider`), restricted to the fields the adapter reads. -/
structure ProviderConfig where
  stage : Option String
  region : Option String
  profile : Option String
  stackName : Option String
  cfnRole : Option String
  deploymentBucket : Option DeploymentBucketConfig
deriving DecidableEq, Repr

/-- A per-function `package` object (`func.package`): its `artifact` field. -/
structure FunctionPackage where
  artifact : Option String
deriving DecidableEq, Repr

/-- A function configuration as returned by
`serverless.service.getFunction(functionName)`. -/
structure FunctionConfig where
  package : Option FunctionPackage
deriving DecidableEq, Repr

/-- The `serverless.config` object, restricted to the fields read by the
precedence chains. -/
structure ServerlessRunConfig where
  stage : Option String
  region : Option String
  profile : Option String
deriving DecidableEq, Repr

/-- The `serverless.service` object: service name (`service.service`),
the provider configuration, the service-wide `artifact`, and the
`getFunction` lookup (host-framework code, modelled as a total lookup). -/
structure Service where
  service : String
  provider : ProviderConfig
  artifact : Option String
  getFunction : String → FunctionConfig

/-- The `serverless` host-framework object graph the adapter reads. -/
structure Serverless where
  config : ServerlessRunConfig
  service : Service

/-- CLI options passed to the adapter (`this.options`); `awsProfile` models
the `"aws-profile"` key. -/
structure Options where
  stage : Option String
  region : Option String
  profile : Option String
  awsProfile : Option String
deriving DecidableEq, Repr

/-- The handle produced by `SdkProvider.withAwsCliCompatibleDefaults`; it owns
the profile it was constructed with. -/
structure SdkProviderHandle where
  profile : Option String
deriving DecidableEq, Repr

/-- `SdkProvider.withAwsCliCompatibleDefaults({ profile })`, modelled as
constructing a handle that records the profile. -/
def SdkProvider_withAwsCliCompatibleDefaults (profile : Option String) : SdkProviderHandle :=
  ⟨profile⟩

/-- The `AwsCdkProvider` adapter instance: CLI options, the `serverless`
object graph, and the private memoized `sdkProvider` field (initially
`undefined`, hence `Option`). -/
structure AwsCdkProvider where
  options : Options
  serverless : Serverless
  sdkProvider : Option SdkProviderHandle

namespace AwsCdkProvider

/-- A `{ path, value }` pair as produced by `getValues`: the lookup path and
the value `_.get` found there (`undefined` as `none`). -/
structure PathValue where
  path : List String
  value : Option String
deriving DecidableEq, Repr

/-- The callback of the `reduce` inside `firstValue`:
`(result, current) => (result.value ? result : current)`. -/
def fvStep (result current : PathValue) : PathValue :=
  if truthy result.value then result else current

/-- `firstValue(values)`: reduce over the chain keeping the accumulator once
its value is truthy, starting from `{ path: [], value: undefined }`. -/
def firstValue (values : List PathValue) : PathValue :=
  values.foldl fvStep ⟨[], none⟩

/-- The chain `getValues(this, [["options","stage"], ["serverless","config",
"stage"], ["serverless","service","provider","stage"]])`, with each `_.get`
realised as the corresponding field projection. -/
def stageValues (p : AwsCdkProvider) : List PathValue :=
  [ ⟨["options", "stage"], p.options.stage⟩,
    ⟨["serverless", "config", "stage"], p.serverless.config.stage⟩,
    ⟨["serverless", "service", "provider", "stage"], p.serverless.service.provider.stage⟩ ]

/-- `getStageSourceValue()`. -/
def getStageSourceValue (p : AwsCdkProvider) : PathValue :=
  firstValue (stageValues p)

/-- `getStage()`: `stageSourceValue.value || "dev"`. -/
def getStage (p : AwsCdkProvider) : String :=
  jsOrString (getStageSourceValue p).value "dev"

/-- The chain `getValues(this, [["options","region"], ["serverless","config",
"region"], ["serverless","service","provider","region"]])`. -/
def regionValues (p : AwsCdkProvider) : List PathValue :=
  [ ⟨["options", "region"], p.options.region⟩,
    ⟨["serverless", "config", "region"], p.serverless.config.region⟩,
    ⟨["serverless", "service", "provider", "region"], p.serverless.service.provider.region⟩ ]

/-- `getRegionSourceValue()`. -/
def getRegionSourceValue (p : AwsCdkProvider) : PathValue :=
  firstValue (regionValues p)

/-- `getRegion()`: `regionSourceValue.value || "us-east-1"`. -/
def getRegion (p : AwsCdkProvider) : String :=
  jsOrString (getRegionSourceValue p).value "us-east-1"

/-- The chain `getValues(this, [["options","aws-profile"], ["options",
"profile"], ["serverless","config","profile"], ["serverless","service",
"provider","profile"]])`. -/
def profileValues (p : AwsCdkProvider) : List PathValue :=
  [ ⟨["options", "aws-profile"], p.options.awsProfile⟩,
    ⟨["options", "profile"], p.options.profile⟩,
    ⟨["serverless", "config", "profile"], p.serverless.config.profile⟩,
    ⟨["serverless", "service", "provider", "profile"], p.serverless.service.provider.profile⟩ ]

/-- `getProfileSourceValue()`: `firstVal ? firstVal.value : null` — the
`firstValue` result is an object, hence always truthy, so this is its
`value`. -/
def getProfileSourceValue (p : AwsCdkProvider) : Option String :=
  (firstValue (profileValues p)).value

/-- `getProfile()`. -/
def getProfile (p : AwsCdkProvider) : Option String :=
  getProfileSourceValue p

/-- `getStackName()`:
`provider.stackName || service.service + "-" + getStage()`. -/
def getStackName (p : AwsCdkProvider) : String :=
  jsOrString p.serverless.service.provider.stackName
    (p.serverless.service.service ++ "-" ++ getStage p)

/-- `getCfnRoleArn()`: `provider.cfnRole || undefined` — a falsy `cfnRole`
(absent or empty) becomes `undefined`. -/
def getCfnRoleArn (p : AwsCdkProvider) : Option String :=
  match p.serverless.service.provider.cfnRole with
  | some s => if s == "" then none else some s
  | none => none

/-- `getDeploymentBucketName()`: the `name` field of the
`provider.deploymentBucket` config when both are truthy, else `undefined`. -/
def getDeploymentBucketName (p : AwsCdkProvider) : Option String :=
  match p.serverless.service.provider.deploymentBucket with
  | some deploymentBucketConfig =>
    match deploymentBucketConfig.name with
    | some n => if n == "" then none else some n
    | none => none
  | none => none

/-- The `else if (this.serverless.service.artifact) ... else throw` tail of
`getFunctionZipPath`. -/
def serviceArtifactOrError (p : AwsCdkProvider) : Except String String :=
  match p.serverless.service.artifact with
  | some a => if a == "" then Except.error "Could not find zip package" else Except.ok a
  | none => Except.error "Could not find zip package"

/-- `getFunctionZipPath(functionName)`: the per-function
`func.package.artifact` when `func.package && func.package.artifact` is
truthy, else the service-wide artifact, else
`throw new Error("Could not find zip package")` (the PackageNotFoundError). -/
def getFunctionZipPath (p : AwsCdkProvider) (functionName : String) : Except String String :=
  let func := p.serverless.service.getFunction functionName
  match func.package with
  | some pkg =>
    match pkg.artifact with
    | some a => if a == "" then serviceArtifactOrError p else Except.ok a
    | none => serviceArtifactOrError p
  | none => serviceArtifactOrError p

/-- The truthiness of `func.package && func.package.artifact`, as a single
optional value: the per-function artifact path when the `package` object
exists. -/
def perFunctionArtifact (p : AwsCdkProvider) (functionName : String) : Option String :=
  (p.serverless.service.getFunction functionName).package.bind FunctionPackage.artifact

/-- A character allowed by `canonicalise`, i.e. matched by `[a-zA-Z0-9-]`
(the complement of the regex's character class). -/
def isCanonAllowed (c : Char) : Bool :=
  c.isAlpha || c.isDigit || c == '-'

/-- `value.replace(/[^a-zA-Z0-9-]+/, "-")` on the character list: the regex
has no global flag, so only the leftmost maximal run of disallowed characters
is replaced by a single hyphen and the remainder is returned verbatim. -/
def canonicaliseList : List Char → List Char
  | [] => []
  | c :: cs =>
    if isCanonAllowed c then c :: canonicaliseList cs
    else '-' :: cs.dropWhile (fun d => !isCanonAllowed d)

/-- `canonicalise(value)`. -/
def canonicalise (value : String) : String :=
  String.mk (canonicaliseList value.data)

/-- A character allowed by `makeAlphanumeric`, i.e. matched by `[a-zA-Z0-9]`. -/
def isAlnum (c : Char) : Bool :=
  c.isAlpha || c.isDigit

/-- Dropping a prefix never lengthens a list (termination measure for
`makeAlphanumericList`). -/
theorem length_dropWhile_le_self {α : Type} (q : α → Bool) (l : List α) :
    (l.dropWhile q).length ≤ l.length := by
  induction l with
  | nil => simp [List.dropWhile]
  | cons a l ih =>
    by_cases h : q a
    · rw [List.dropWhile_cons_of_pos h]
      exact Nat.le_succ_of_le ih
    · rw [List.dropWhile_cons_of_neg h]

/-- `value.replace(/[^a-zA-Z0-9]+/g, "")` on the character list: the global
regex deletes every maximal run of disallowed characters, and scanning
resumes after each deleted run. -/
def makeAlphanumericList : List Char → List Char
  | [] => []
  | c :: cs =>
    if isAlnum c then c :: makeAlphanumericList cs
    else makeAlphanumericList (cs.dropWhile (fun d => !isAlnum d))
termination_by l => l.length
decreasing_by
  all_goals
    have h : (cs.dropWhile (fun d => !isAlnum d)).length ≤ cs.length :=
      length_dropWhile_le_self (fun d => !isAlnum d) cs
    simp only [List.length_cons]
    omega

/-- `makeAlphanumeric(value)`. -/
def makeAlphanumeric (value : String) : String :=
  String.mk (makeAlphanumericList value.data)

/-- `_.split(arn, ":")` on the character list: JavaScript string split on a
single-character separator (an empty string yields one empty segment). -/
def splitColon : List Char → List (List Char)
  | [] => [[]]
  | c :: cs =>
    if c = ':' then [] :: splitColon cs
    else
      match splitColon cs with
      | [] => [[c]]
      | g :: gs => (c :: g) :: gs

/-- `_.split(arn, ":")` at the string level. -/
def splitColonStr (s : String) : List String :=
  (splitColon s.data).map String.mk

/-- The response of `sts.getCallerIdentity()`, entering the model as data. -/
structure CallerIdentity where
  Arn : String
  Account : String
  UserId : String
deriving DecidableEq, Repr

/-- The `AccountInfo` interface; `partition` is declared `string` in the
source but its runtime value is `_.nth(_.split(arn, ":"), 1)!`, which is
`undefined` when the ARN has fewer than two `:`-separated segments, so it is
modelled as `Option String`. -/
structure AccountInfo where
  accountId : String
  partition : Option String
  arn : String
  userId : String
deriving DecidableEq, Repr

/-- `getAccountInfo()`: builds `AccountInfo` from the identity-call response
(the STS client construction with `region: this.getRegion()` is the external
call itself and carries no data into the result). `partition` is
`_.nth(_.split(arn, ":"), 1)`. -/
def getAccountInfo (p : AwsCdkProvider) (result : CallerIdentity) : AccountInfo :=
  let arn := result.Arn
  let accountId := result.Account
  let partition := (splitColonStr arn).get? 1
  let userId := result.UserId
  { accountId := accountId, partition := partition, arn := arn, userId := userId }

/-- `getAccountId()`: the `accountId` field of `getAccountInfo()`. -/
def getAccountId (p : AwsCdkProvider) (result : CallerIdentity) : String :=
  (getAccountInfo p result).accountId

/-- The `cxapi.Environment` descriptor `{ name, account, region }`. -/
structure Environment where
  name : String
  account : String
  region : String
deriving DecidableEq, Repr

/-- `getEnvironment()`: `{ name: stage, account: accountId, region }`. -/
def getEnvironment (p : AwsCdkProvider) (result : CallerIdentity) : Environment :=
  let accountId := getAccountId p result
  let region := getRegion p
  let stage := getStage p
  { name := stage, account := accountId, region := region }

/-- The `Mode` enumeration of the CDK toolkit. -/
inductive Mode where
  | ForReading
  | ForWriting
deriving DecidableEq, Repr

/-- The call `getSdk` issues on the SDK provider, as data:
either `withAssumedRole(roleArn, accountId, region)` or
`forEnvironment(environment, mode)`. -/
inductive SdkRequest where
  | withAssumedRole (roleArn : String) (accountId : String) (region : String)
  | forEnvironment (environment : Environment) (mode : Mode)
deriving DecidableEq, Repr

/-- `getSdk()`: branches on `!!this.getCfnRoleArn()`.  `getCfnRoleArn` maps
falsy `cfnRole` values to `undefined` (lemma `getCfnRoleArn_ne_some_empty`),
so `!!assumeRoleArn` is exactly `isSome` here.  The memoized provider handle
obtained from `getSdkProvider` is the receiver of both calls and is modelled
separately. -/
def getSdk (p : AwsCdkProvider) (result : CallerIdentity) : SdkRequest :=
  match getCfnRoleArn p with
  | some assumeRoleArn =>
    SdkRequest.withAssumedRole assumeRoleArn (getAccountId p result) (getRegion p)
  | none =>
    SdkRequest.forEnvironment (getEnvironment p result) Mode.ForWriting

/-- `getSdkProvider()`: when the private `sdkProvider` field is unset,
construct it via `SdkProvider.withAwsCliCompatibleDefaults({ profile:
this.getProfile() })` and store it; return the stored handle.  The state
change is the updated adapter returned alongside the handle. -/
def getSdkProvider (p : AwsCdkProvider) : SdkProviderHandle × AwsCdkProvider :=
  match p.sdkProvider with
  | some h => (h, p)
  | none =>
    let h := SdkProvider_withAwsCliCompatibleDefaults (getProfile p)
    (h, { p with sdkProvider := some h })

/-! ## General lemmas about the `firstValue` reduction -/

/-- Once the accumulator of the `firstValue` reduce is truthy, the rest of
the chain is ignored. -/
theorem fvFoldl_of_truthy (vs : List PathValue) (acc : PathValue)
    (h : truthy acc.value = true) : vs.foldl fvStep acc = acc := by
  induction vs with
  | nil => rfl
  | cons v vs ih =>
    rw [List.foldl_cons]
    have hstep : fvStep acc v = acc := by simp [fvStep, h]
    rw [hstep]
    exact ih

/-- With a falsy accumulator, the `firstValue` reduce returns the first
truthy entry of the chain when there is one. -/
theorem fvFoldl_find_some (vs : List PathValue) (acc : PathValue)
    (hacc : truthy acc.value = false) (e : PathValue)
    (h : vs.find? (fun x => truthy x.value) = some e) :
    vs.foldl fvStep acc = e := by
  induction vs generalizing acc with
  | nil => simp [List.find?] at h
  | cons v vs ih =>
    rw [List.foldl_cons]
    have hstep : fvStep acc v = v := by simp [fvStep, hacc]
    rw [hstep]
    by_cases hv : truthy v.value = true
    · rw [List.find?_cons_of_pos vs (show (fun x => truthy x.value) v = true from hv)] at h
      have he : e = v := (Option.some_inj.mp h).symm
      rw [he]
      exact fvFoldl_of_truthy vs v hv
    · have hv' : truthy v.value = false := by simpa using hv
      rw [List.find?_cons_of_neg vs (by simp [hv'])] at h
      exact ih v hv' h

/-- With a falsy accumulator and a chain with no truthy entry, the
`firstValue` reduce yields a falsy value. -/
theorem fvFoldl_all_falsy (vs : List PathValue) (acc : PathValue)
    (hacc : truthy acc.value = false)
    (h : ∀ e ∈ vs, truthy e.value = false) :
    truthy (vs.foldl fvStep acc).value = false := by
  induction vs generalizing acc with
  | nil => exact hacc
  | cons v vs ih =>
    rw [List.foldl_cons]
    have hstep : fvStep acc v = v := by simp [fvStep, hacc]
    rw [hstep]
    exact ih v (h v (List.mem_cons_self v vs)) (fun e he => h e (List.mem_cons_of_mem v he))

/-- `firstValue` returns the first truthy entry of the chain when one
exists. -/
theorem firstValue_find_some (vs : List PathValue) (e : PathValue)
    (h : vs.find? (fun x => truthy x.value) = some e) :
    firstValue vs = e :=
  fvFoldl_find_some vs ⟨[], none⟩ rfl e h

/-- `firstValue` yields a falsy value when every entry of the chain is
falsy. -/
theorem firstValue_all_falsy (vs : List PathValue)
    (h : ∀ e ∈ vs, truthy e.value = false) :
    truthy (firstValue vs).value = false :=
  fvFoldl_all_falsy vs ⟨[], none⟩ rfl h

/-- A truthy optional string is `some` of a non-empty string, on which
`jsOrString` returns the string itself. -/
theorem jsOrString_of_truthy (v : Option String) (s : String) (d : String)
    (hv : v = some s) (hs : truthy v = true) : jsOrString v d = s := by
  subst hv
  simp only [truthy, Bool.not_eq_true'] at hs
  simp [jsOrString, hs]

/-- `jsOrString` falls back to the default on a falsy value. -/
theorem jsOrString_of_falsy (v : Option String) (d : String)
    (hv : truthy v = false) : jsOrString v d = d := by
  match v with
  | none => rfl
  | some s =>
    simp only [truthy, Bool.not_eq_false'] at hv
    simp [jsOrString, hv]

/-! ## Example adapter instances used to instantiate the theorems -/

/-- A minimal provider configuration with every optional field unset. -/
def emptyProviderConfig : ProviderConfig :=
  { stage := none, region := none, profile := none, stackName := none,
    cfnRole := none, deploymentBucket := none }

/-- A minimal service named `"svc"` with no artifacts and no per-function
packages. -/
def sampleService : Service :=
  { service := "svc", provider := emptyProviderConfig, artifact := none,
    getFunction := fun _ => { package := none } }

/-- A minimal adapter instance: no CLI options, no run config values, the
minimal service, and no memoized SDK provider. -/
def sampleProvider : AwsCdkProvider :=
  { options := { stage := none, region := none, profile := none, awsProfile := none },
    serverless :=
      { config := { stage := none, region := none, profile := none },
        service := sampleService },
    sdkProvider := none }

/-- An adapter whose stage/region/profile chains each have an earlier falsy
entry followed by a truthy one. -/
def chainProvider : AwsCdkProvider :=
  { sampleProvider with
    options := { stage := some "", region := none, profile := none, awsProfile := some "p1" },
    serverless :=
      { config := { stage := some "prod", region := some "eu-west-1", profile := none },
        service :=
          { sampleService with
            provider := { emptyProviderConfig with stage := some "x" } } } }

/-- An adapter whose stage/region/profile chains are entirely falsy (a mix of
absent values and empty strings). -/
def emptyChainProvider : AwsCdkProvider :=
  { sampleProvider with
    options := { stage := some "", region := none, profile := some "", awsProfile := none } }

/-! ## Claim theorems -/

/-- C1: For each of the three precedence chains (stage via `getStage`, region
via `getRegion`, profile via `getProfile`), the resolved value equals the
first non-empty entry of that chain in its fixed order; if every entry of the
chain is empty, `getStage` returns `"dev"`, `getRegion` returns
`"us-east-1"`, and `getProfile` returns an unset (falsy) value. -/
theorem precedence_chain_resolution (p : AwsCdkProvider) :
    (∀ e s, (stageValues p).find? (fun x => truthy x.value) = some e →
      e.value = some s → getStage p = s) ∧
    ((stageValues p).all (fun x => !truthy x.value) = true → getStage p = "dev") ∧
    (∀ e s, (regionValues p).find? (fun x => truthy x.value) = some e →
      e.value = some s → getRegion p = s) ∧
    ((regionValues p).all (fun x => !truthy x.value) = true → getRegion p = "us-east-1") ∧
    (∀ e s, (profileValues p).find? (fun x => truthy x.value) = some e →
      e.value = some s → getProfile p = some s) ∧
    ((profileValues p).all (fun x => !truthy x.value) = true →
      truthy (getProfile p) = false) := by
  have falsyOf : ∀ (vs : List PathValue), vs.all (fun x => !truthy x.value) = true →
      ∀ e ∈ vs, truthy e.value = false := by
    intro vs h e he
    have := List.all_eq_true.mp h e he
    simpa using this
  refine ⟨?_, ?_, ?_, ?_, ?_, ?_⟩
  · intro e s hfind hval
    unfold getStage getStageSourceValue
    rw [firstValue_find_some _ e hfind]
    exact jsOrString_of_truthy e.value s "dev" hval (by simpa using List.find?_some hfind)
  · intro h
    unfold getStage getStageSourceValue
    exact jsOrString_of_falsy _ _ (firstValue_all_falsy _ (falsyOf _ h))
  · intro e s hfind hval
    unfold getRegion getRegionSourceValue
    rw [firstValue_find_some _ e hfind]
    exact jsOrString_of_truthy e.value s "us-east-1" hval (by simpa using List.find?_some hfind)
  · intro h
    unfold getRegion getRegionSourceValue
    exact jsOrString_of_falsy _ _ (firstValue_all_falsy _ (falsyOf _ h))
  · intro e s hfind hval
    unfold getProfile getProfileSourceValue
    rw [firstValue_find_some _ e hfind]
    exact hval
  · intro h
    unfold getProfile getProfileSourceValue
    exact firstValue_all_falsy _ (falsyOf _ h)

/-- Witness for C1: on `chainProvider` each chain resolves to its first
non-empty entry (skipping an earlier empty-string entry), and on
`emptyChainProvider` the defaults `"dev"` and `"us-east-1"` and an unset
profile come out. -/
theorem precedence_chain_resolution_witness :
    getStage chainProvider = "prod" ∧
    getRegion chainProvider = "eu-west-1" ∧
    getProfile chainProvider = some "p1" ∧
    getStage emptyChainProvider = "dev" ∧
    getRegion emptyChainProvider = "us-east-1" ∧
    truthy (getProfile emptyChainProvider) = false := by
  refine ⟨?_, ?_, ?_, ?_, ?_, ?_⟩
  · exact (precedence_chain_resolution chainProvider).1
      ⟨["serverless", "config", "stage"], some "prod"⟩ "prod" (by decide) rfl
  · exact (precedence_chain_resolution chainProvider).2.2.1
      ⟨["serverless", "config", "region"], some "eu-west-1"⟩ "eu-west-1" (by decide) rfl
  · exact (precedence_chain_resolution chainProvider).2.2.2.2.1
      ⟨["options", "aws-profile"], some "p1"⟩ "p1" (by decide) rfl
  · exact (precedence_chain_resolution emptyChainProvider).2.1 (by decide)
  · exact (precedence_chain_resolution emptyChainProvider).2.2.2.1 (by decide)
  · exact (precedence_chain_resolution emptyChainProvider).2.2.2.2.2 (by decide)

/-! ## Lemmas about the sanitizing helpers -/

/-- `dropWhile` consumes a prefix on which the predicate holds throughout. -/
theorem dropWhile_append_of_forall {α : Type} (q : α → Bool) (l₁ l₂ : List α)
    (h : ∀ c ∈ l₁, q c = true) :
    (l₁ ++ l₂).dropWhile q = l₂.dropWhile q := by
  induction l₁ with
  | nil => rfl
  | cons c cs ih =>
    rw [List.cons_append, List.dropWhile_cons_of_pos (h c (List.mem_cons_self c cs))]
    exact ih (fun d hd => h d (List.mem_cons_of_mem c hd))

/-- `dropWhile` stops immediately when the head (if any) fails the
predicate. -/
theorem dropWhile_of_head_neg {α : Type} (q : α → Bool) (l : List α)
    (h : ∀ d, l.head? = some d → q d = false) :
    l.dropWhile q = l := by
  match l with
  | [] => rfl
  | d :: rest =>
    exact List.dropWhile_cons_of_neg (by simp [h d rfl])

/-- Filtering is unaffected by first dropping a prefix of elements that fail
the filter. -/
theorem filter_dropWhile_not {α : Type} (q : α → Bool) (l : List α) :
    (l.dropWhile (fun d => !q d)).filter q = l.filter q := by
  induction l with
  | nil => rfl
  | cons c cs ih =>
    by_cases h : q c = true
    · rw [List.dropWhile_cons_of_neg (by simp [h])]
    · rw [List.dropWhile_cons_of_pos (by simp [h]), ih]
      exact (List.filter_cons_of_neg h).symm

/-- `makeAlphanumericList` (run-by-run global deletion) keeps exactly the
allowed characters, in order. -/
theorem makeAlphanumericList_eq_filter (l : List Char) :
    makeAlphanumericList l = l.filter isAlnum := by
  induction l using makeAlphanumericList.induct with
  | case1 => simp [makeAlphanumericList]
  | case2 c cs h ih =>
    rw [makeAlphanumericList, if_pos h, ih]
    exact (List.filter_cons_of_pos h).symm
  | case3 c cs h ih =>
    rw [makeAlphanumericList, if_neg h, ih, filter_dropWhile_not]
    exact (List.filter_cons_of_neg h).symm

/-- C2: `canonicalise` replaces only the first maximal run of characters
outside `[a-zA-Z0-9-]` with a single hyphen and leaves later runs unchanged:
for any decomposition of the input into an allowed prefix, a non-empty
disallowed run that is maximal (the following character, if any, is allowed),
and an arbitrary remainder, the result is the prefix, one hyphen, and the
remainder verbatim. -/
theorem canonicalise_replaces_first_run (pre run post : List Char)
    (hpre : ∀ c ∈ pre, isCanonAllowed c = true)
    (hrun : run ≠ [])
    (hrunBad : ∀ c ∈ run, isCanonAllowed c = false)
    (hpost : ∀ d, post.head? = some d → isCanonAllowed d = true) :
    canonicalise (String.mk (pre ++ (run ++ post))) = String.mk (pre ++ ('-' :: post)) := by
  unfold canonicalise
  have hlist : canonicaliseList (pre ++ (run ++ post)) = pre ++ ('-' :: post) := by
    induction pre with
    | nil =>
      match run, hrun with
      | r :: rs, _ =>
        have hr : isCanonAllowed r = false := hrunBad r (List.mem_cons_self r rs)
        rw [List.nil_append, List.cons_append, canonicaliseList, if_neg (by simp [hr])]
        rw [dropWhile_append_of_forall _ rs post
          (fun c hc => by simp [hrunBad c (List.mem_cons_of_mem r hc)])]
        rw [dropWhile_of_head_neg _ post (fun d hd => by simp [hpost d hd])]
        rfl
    | cons c pre ih =>
      have hc : isCanonAllowed c = true := hpre c (List.mem_cons_self c pre)
      rw [List.cons_append, canonicaliseList, if_pos hc,
        ih (fun d hd => hpre d (List.mem_cons_of_mem c hd))]
      rfl
  rw [hlist]

/-- Witness for C2: `canonicalise("a!!b!!c") = "a-b!!c"` — only the first
`!!` run is replaced, the second is left in place. -/
theorem canonicalise_replaces_first_run_witness :
    canonicalise "a!!b!!c" = "a-b!!c" := by
  have h := canonicalise_replaces_first_run ['a'] ['!', '!'] ['b', '!', '!', 'c']
    (by decide) (by decide) (by decide) (by decide)
  exact h

/-- C9: `makeAlphanumeric` removes every character outside `[a-zA-Z0-9]` from
its input, across the whole string (the output is exactly the input filtered
to its allowed characters); in particular
`makeAlphanumeric("a-b_c!d") = "abcd"`. -/
theorem makeAlphanumeric_removes_all :
    (∀ s : String, (makeAlphanumeric s).data = s.data.filter isAlnum) ∧
    makeAlphanumeric "a-b_c!d" = "abcd" := by
  constructor
  · intro s
    exact makeAlphanumericList_eq_filter s.data
  · have h := makeAlphanumericList_eq_filter "a-b_c!d".data
    unfold makeAlphanumeric
    rw [h]
    rfl

/-- C10: `makeAlphanumeric` is idempotent and its output consists only of
characters in `[a-zA-Z0-9]`. -/
theorem makeAlphanumeric_idempotent :
    ∀ s : String,
      makeAlphanumeric (makeAlphanumeric s) = makeAlphanumeric s ∧
      (makeAlphanumeric s).data.all isAlnum = true := by
  intro s
  have hdata : (makeAlphanumeric s).data = s.data.filter isAlnum :=
    makeAlphanumericList_eq_filter s.data
  constructor
  · have h1 : makeAlphanumericList (makeAlphanumericList s.data) = makeAlphanumericList s.data := by
      rw [makeAlphanumericList_eq_filter (makeAlphanumericList s.data),
        makeAlphanumericList_eq_filter s.data, List.filter_filter]
      exact List.filter_congr (fun a _ => by cases isAlnum a <;> rfl)
    show String.mk (makeAlphanumericList (String.mk (makeAlphanumericList s.data)).data) =
      String.mk (makeAlphanumericList s.data)
    rw [show (String.mk (makeAlphanumericList s.data)).data = makeAlphanumericList s.data from rfl,
      h1]
  · rw [hdata]
    exact List.all_eq_true.mpr (fun a ha => List.of_mem_filter ha)

/-! ## Lemmas about the remaining getters -/

/-- When the service-wide artifact is falsy, the tail of `getFunctionZipPath`
throws. -/
theorem serviceArtifactOrError_of_falsy (p : AwsCdkProvider)
    (h : truthy p.serverless.service.artifact = false) :
    serviceArtifactOrError p = Except.error "Could not find zip package" := by
  unfold serviceArtifactOrError
  match ha : p.serverless.service.artifact with
  | none => rfl
  | some a =>
    rw [ha] at h
    simp only [truthy, Bool.not_eq_false'] at h
    simp [h]

/-- `getCfnRoleArn` never returns `some ""`: a falsy `cfnRole` is mapped to
`undefined`. -/
theorem getCfnRoleArn_ne_some_empty (p : AwsCdkProvider) (s : String)
    (h : getCfnRoleArn p = some s) : s ≠ "" := by
  unfold getCfnRoleArn at h
  match hc : p.serverless.service.provider.cfnRole with
  | none => rw [hc] at h; exact absurd h (by simp)
  | some t =>
    rw [hc] at h
    by_cases ht : t = ""
    · subst ht
      simp at h
    · have hb : (t == "") = false := beq_eq_false_iff_ne.mpr ht
      have hts : t = s := by simpa [hb] using h
      exact hts ▸ ht

/-- C3: For every function name, `getFunctionZipPath` returns the
per-function package artifact path when it is set — regardless of whether a
service-wide artifact is also set — and fails with the
`"Could not find zip package"` error (PackageNotFoundError) when neither the
per-function nor the service-wide artifact is set. -/
theorem getFunctionZipPath_precedence (p : AwsCdkProvider) (fn : String) :
    (∀ pkg a, (p.serverless.service.getFunction fn).package = some pkg →
      pkg.artifact = some a → a ≠ "" → getFunctionZipPath p fn = Except.ok a) ∧
    (truthy (perFunctionArtifact p fn) = false →
      truthy p.serverless.service.artifact = false →
      getFunctionZipPath p fn = Except.error "Could not find zip package") := by
  constructor
  · intro pkg a hpkg ha hne
    simp [getFunctionZipPath, hpkg, ha, hne]
  · intro hfn hsvc
    have hsae := serviceArtifactOrError_of_falsy p hsvc
    match hpkg : (p.serverless.service.getFunction fn).package with
    | none => simp [getFunctionZipPath, hpkg, hsae]
    | some pkg =>
      match ha : pkg.artifact with
      | none => simp [getFunctionZipPath, hpkg, ha, hsae]
      | some a =>
        have haempty : a = "" := by
          unfold perFunctionArtifact at hfn
          rw [hpkg] at hfn
          simpa [Option.bind, ha, truthy] using hfn
        subst haempty
        simp [getFunctionZipPath, hpkg, ha, hsae]

/-- An adapter with both a per-function artifact (`"fn.zip"`) and a
service-wide artifact (`"service.zip"`). -/
def zipProvider : AwsCdkProvider :=
  { sampleProvider with
    serverless :=
      { sampleProvider.serverless with
        service :=
          { sampleService with
            artifact := some "service.zip",
            getFunction := fun _ => { package := some { artifact := some "fn.zip" } } } } }

/-- Witness for C3: with both artifacts configured the per-function path
wins, and with neither configured the PackageNotFoundError is thrown. -/
theorem getFunctionZipPath_precedence_witness :
    getFunctionZipPath zipProvider "f" = Except.ok "fn.zip" ∧
    getFunctionZipPath sampleProvider "f" =
      Except.error "Could not find zip package" := by
  constructor
  · exact (getFunctionZipPath_precedence zipProvider "f").1
      { artifact := some "fn.zip" } "fn.zip" rfl rfl (by decide)
  · exact (getFunctionZipPath_precedence sampleProvider "f").2 rfl rfl

/-- C4: `getStackName` returns the configured explicit stack-name override
when one is set; otherwise it returns exactly the service name and the
resolved stage joined by a hyphen. -/
theorem getStackName_override_or_service_stage (p : AwsCdkProvider) :
    (∀ s, p.serverless.service.provider.stackName = some s → s ≠ "" →
      getStackName p = s) ∧
    (truthy p.serverless.service.provider.stackName = false →
      getStackName p = p.serverless.service.service ++ "-" ++ getStage p) := by
  constructor
  · intro s hs hne
    unfold getStackName
    exact jsOrString_of_truthy _ s _ hs (by simp [truthy, hs, hne])
  · intro h
    unfold getStackName
    exact jsOrString_of_falsy _ _ h

/-- An adapter with an explicit stack-name override. -/
def stackNameProvider : AwsCdkProvider :=
  { sampleProvider with
    serverless :=
      { sampleProvider.serverless with
        service :=
          { sampleService with
            provider := { emptyProviderConfig with stackName := some "custom-stack" } } } }

/-- Witness for C4: the override is returned when set, and service `"svc"`
with default stage `"dev"` yields `"svc-dev"` otherwise. -/
theorem getStackName_override_or_service_stage_witness :
    getStackName stackNameProvider = "custom-stack" ∧
    getStackName sampleProvider = "svc-dev" := by
  constructor
  · exact (getStackName_override_or_service_stage stackNameProvider).1
      "custom-stack" rfl (by decide)
  · exact (getStackName_override_or_service_stage sampleProvider).2 rfl

/-- C5: `getSdk` branches on whether a cross-account role ARN is configured:
when `getCfnRoleArn` yields one, it delegates to the toolkit's
role-assumption routine with exactly `(roleArn, accountId, region)`; when it
yields none, it requests a session for the resolved environment descriptor in
for-writing mode. -/
theorem getSdk_branches_on_cfn_role (p : AwsCdkProvider) (result : CallerIdentity) :
    (∀ arn, getCfnRoleArn p = some arn →
      getSdk p result =
        SdkRequest.withAssumedRole arn (getAccountId p result) (getRegion p)) ∧
    (getCfnRoleArn p = none →
      getSdk p result =
        SdkRequest.forEnvironment (getEnvironment p result) Mode.ForWriting) := by
  constructor
  · intro arn h
    unfold getSdk
    rw [h]
  · intro h
    unfold getSdk
    rw [h]

/-- The identity-call response used by the witnesses. -/
def sampleIdentity : CallerIdentity :=
  { Arn := "arn:aws:iam::123456789012:user/alice",
    Account := "123456789012",
    UserId := "AIDAEXAMPLE" }

/-- An adapter with a cross-account `cfnRole` ARN configured. -/
def cfnRoleProvider : AwsCdkProvider :=
  { sampleProvider with
    serverless :=
      { sampleProvider.serverless with
        service :=
          { sampleService with
            provider := { emptyProviderConfig with cfnRole := some "arn:aws:iam::1:role/deploy" } } } }

/-- Witness for C5: with a configured role the assumed-role call is issued
with `(roleArn, accountId, region)`; without one, the for-writing session for
the resolved environment is requested. -/
theorem getSdk_branches_on_cfn_role_witness :
    getSdk cfnRoleProvider sampleIdentity =
      SdkRequest.withAssumedRole "arn:aws:iam::1:role/deploy"
        (getAccountId cfnRoleProvider sampleIdentity) (getRegion cfnRoleProvider) ∧
    getSdk sampleProvider sampleIdentity =
      SdkRequest.forEnvironment (getEnvironment sampleProvider sampleIdentity)
        Mode.ForWriting := by
  constructor
  · exact (getSdk_branches_on_cfn_role cfnRoleProvider sampleIdentity).1
      "arn:aws:iam::1:role/deploy" rfl
  · exact (getSdk_branches_on_cfn_role sampleProvider sampleIdentity).2 rfl

/-- C6: The SDK-provider handle is constructed at most once per adapter
instance: when the field is unset, the first `getSdkProvider` call constructs
the handle from the resolved profile and stores it; and on the state after
any call, calling again returns the same handle and leaves the state
unchanged. -/
theorem getSdkProvider_memoized (p : AwsCdkProvider) :
    (p.sdkProvider = none →
      getSdkProvider p =
        (SdkProvider_withAwsCliCompatibleDefaults (getProfile p),
         { p with sdkProvider := some (SdkProvider_withAwsCliCompatibleDefaults (getProfile p)) })) ∧
    getSdkProvider (getSdkProvider p).2 = ((getSdkProvider p).1, (getSdkProvider p).2) := by
  constructor
  · intro h
    unfold getSdkProvider
    rw [h]
  · match hp : p.sdkProvider with
    | some h => simp [getSdkProvider, hp]
    | none => simp [getSdkProvider, hp]

/-- Witness for C6: starting from the unset field, the first call constructs
and stores the handle, and the second call is the identity on the resulting
state. -/
theorem getSdkProvider_memoized_witness :
    getSdkProvider sampleProvider =
      (SdkProvider_withAwsCliCompatibleDefaults (getProfile sampleProvider),
       { sampleProvider with
         sdkProvider := some (SdkProvider_withAwsCliCompatibleDefaults (getProfile sampleProvider)) }) ∧
    getSdkProvider (getSdkProvider sampleProvider).2 =
      ((getSdkProvider sampleProvider).1, (getSdkProvider sampleProvider).2) :=
  ⟨(getSdkProvider_memoized sampleProvider).1 rfl,
   (getSdkProvider_memoized sampleProvider).2⟩

/-- C7: `getDeploymentBucketName` returns the configured bucket name when the
deployment-bucket configuration exists and carries a (non-empty) name, and
returns the unset, non-error value `none` when either the bucket
configuration or its name field is absent. -/
theorem getDeploymentBucketName_optional (p : AwsCdkProvider) :
    (∀ cfg n, p.serverless.service.provider.deploymentBucket = some cfg →
      cfg.name = some n → n ≠ "" → getDeploymentBucketName p = some n) ∧
    (p.serverless.service.provider.deploymentBucket = none →
      getDeploymentBucketName p = none) ∧
    (∀ cfg, p.serverless.service.provider.deploymentBucket = some cfg →
      cfg.name = none → getDeploymentBucketName p = none) := by
  refine ⟨?_, ?_, ?_⟩
  · intro cfg n hcfg hn hne
    simp [getDeploymentBucketName, hcfg, hn, hne]
  · intro h
    simp [getDeploymentBucketName, h]
  · intro cfg hcfg hn
    simp [getDeploymentBucketName, hcfg, hn]

/-- An adapter with a deployment bucket named `"my-bucket"`. -/
def bucketProvider : AwsCdkProvider :=
  { sampleProvider with
    serverless :=
      { sampleProvider.serverless with
        service :=
          { sampleService with
            provider :=
              { emptyProviderConfig with
                deploymentBucket := some { name := some "my-bucket" } } } } }

/-- An adapter whose deployment-bucket configuration exists but has no name
field. -/
def namelessBucketProvider : AwsCdkProvider :=
  { sampleProvider with
    serverless :=
      { sampleProvider.serverless with
        service :=
          { sampleService with
            provider :=
              { emptyProviderConfig with
                deploymentBucket := some { name := none } } } } }

/-- Witness for C7: the configured name comes back, and both absence cases
yield the unset value. -/
theorem getDeploymentBucketName_optional_witness :
    getDeploymentBucketName bucketProvider = some "my-bucket" ∧
    getDeploymentBucketName sampleProvider = none ∧
    getDeploymentBucketName namelessBucketProvider = none := by
  refine ⟨?_, ?_, ?_⟩
  · exact (getDeploymentBucketName_optional bucketProvider).1
      { name := some "my-bucket" } "my-bucket" rfl rfl (by decide)
  · exact (getDeploymentBucketName_optional sampleProvider).2.1 rfl
  · exact (getDeploymentBucketName_optional namelessBucketProvider).2.2
      { name := none } rfl rfl

/-- `_.split` on a prefix free of separators peels off exactly that prefix as
the first segment. -/
theorem splitColon_append (p0 l : List Char) (h0 : ':' ∉ p0) :
    splitColon (p0 ++ (':' :: l)) = p0 :: splitColon l := by
  induction p0 with
  | nil =>
    rw [List.nil_append, splitColon, if_pos rfl]
  | cons c p0 ih =>
    have hc : ¬ c = ':' := fun hc => h0 (hc ▸ List.mem_cons_self c p0)
    rw [List.cons_append, splitColon, if_neg hc,
      ih (fun hm => h0 (List.mem_cons_of_mem c hm))]

/-- C8: `getAccountInfo` computes the `partition` field of its result as the
second segment of the ARN returned by the identity call when that ARN is
split on `":"`. -/
theorem getAccountInfo_partition_second_segment (p : AwsCdkProvider)
    (result : CallerIdentity) (p0 p1 rest : List Char)
    (h0 : ':' ∉ p0) (h1 : ':' ∉ p1)
    (harn : result.Arn = String.mk (p0 ++ (':' :: (p1 ++ (':' :: rest))))) :
    (getAccountInfo p result).partition = some (String.mk p1) := by
  have hpart : (getAccountInfo p result).partition =
      (List.map String.mk (splitColon result.Arn.data)).get? 1 := rfl
  rw [hpart, harn]
  show (List.map String.mk (splitColon (p0 ++ (':' :: (p1 ++ (':' :: rest)))))).get? 1 =
    some (String.mk p1)
  rw [splitColon_append p0 _ h0, splitColon_append p1 _ h1]
  rfl

/-- Witness for C8: for the ARN `"arn:aws:iam::123456789012:user/alice"` the
partition is `"aws"`, the second `:`-separated segment. -/
theorem getAccountInfo_partition_second_segment_witness :
    (getAccountInfo sampleProvider sampleIdentity).partition = some "aws" := by
  have h := getAccountInfo_partition_second_segment sampleProvider sampleIdentity
    "arn".data "aws".data "iam::123456789012:user/alice".data
    (by decide) (by decide) rfl
  exact h

end AwsCdkProvider
